import Mathlib

/-!
Verification of the VXP track-and-balance core (`src/vxp/sim.py` and
`src/vxp/solver.py`) against its specification.

The embedding is shallow:
* Python floats are modelled as exact numbers — `ℚ` on the solver side
  (all solver arithmetic is field arithmetic, `abs`, `%`, `min`/`max`,
  `floor`-based rounding), and `ℝ`/`ℂ` on the simulator side, where the
  balance vector needs `cos`/`sin`/`atan2`.
* Python's `dict` keyed by regime is modelled as an insertion-ordered
  association list `List (Regime × Measurement ℚ)`; `r in d` is
  `lookupRegime d r ≠ none`.
* `random.gauss` draws are modelled as an injected `Noise` record, one
  field per draw site, matching the order of draws in `simulate_measurement`.
* Python's `round` (banker's rounding, half to even) is `pyRound`;
  `%` on floats with a positive divisor is `x - d * ⌊x / d⌋`.
-/

namespace VXP

/-- The four blade identifiers, in the fixed order of the `BLADES` list. -/
inductive Blade
  | BLU
  | GRN
  | YEL
  | RED
deriving DecidableEq, Repr

/-- The three flight regimes, in the order of the `REGIMES` list. -/
inductive Regime
  | GROUND
  | HOVER
  | HORIZONTAL
deriving DecidableEq, Repr

/-- Modelled from the spec: the repository imports `Measurement` and
`BalanceReading` from `vxp/types.py`, which is not among the source files.
Per spec §3, a `BalanceReading` is `{amp: float, phase_deg: float, rpm: float}`;
the positional constructor call in `sim.py` is `BalanceReading(amp, phase, rpm)`. -/
structure BalanceReading (α : Type) where
  amp_ips : α
  phase_deg : α
  rpm : α
deriving DecidableEq, Repr

/-- Modelled from the spec: `Measurement` from the missing `vxp/types.py`;
per spec §3 it is `{regime, balance: BalanceReading, track: mapping Blade→float}`,
constructed in `sim.py` as `Measurement(regime=…, balance=…, track_mm=…)`. -/
structure Measurement (α : Type) where
  regime : Regime
  balance : BalanceReading α
  track_mm : Blade → α

namespace solver

/-- `BLADES = ["BLU", "GRN", "YEL", "RED"]` (solver.py line 5). -/
def BLADES : List Blade := [.BLU, .GRN, .YEL, .RED]

/-- `REGIMES = ["GROUND", "HOVER", "HORIZONTAL"]` (solver.py line 6). -/
def REGIMES : List Regime := [.GROUND, .HOVER, .HORIZONTAL]

/-- `BLADE_CLOCK_DEG = {"YEL": 0.0, "RED": 90.0, "BLU": 180.0, "GRN": 270.0}`. -/
def BLADE_CLOCK_DEG : Blade → ℚ
  | .YEL => 0
  | .RED => 90
  | .BLU => 180
  | .GRN => 270

def PITCHLINK_MM_PER_TURN : ℚ := 10

def TRIMTAB_MMTRACK_PER_MM : ℚ := 15

def BOLT_IPS_PER_GRAM : ℚ := 0.0020

/-- A Python `Dict[str, Measurement]` keyed by regime: an insertion-ordered
association list (a `dict` never holds two bindings for the same key). -/
abbrev MeasMap : Type := List (Regime × Measurement ℚ)

/-- Key lookup in the association list, i.e. `meas[r]` / `r in meas`. -/
def lookupRegime : List (Regime × Measurement ℚ) → Regime → Option (Measurement ℚ)
  | [], _ => none
  | (r, m) :: rest, key => if r = key then some m else lookupRegime rest key

/-- `track_limit`: `5.0 if regime in ("HOVER", "HORIZONTAL") else 10.0`. -/
def track_limit : Regime → ℚ
  | .HOVER => 5
  | .HORIZONTAL => 5
  | .GROUND => 10

/-- `balance_limit`: `0.40 if regime == "GROUND" else 0.05`. -/
def balance_limit : Regime → ℚ
  | .GROUND => 0.40
  | _ => 0.05

/-- `track_spread(m) = max(vals) - min(vals)` over
`vals = [m.track_mm[b] for b in BLADES]`. -/
def track_spread (m : Measurement ℚ) : ℚ :=
  max (max (max (m.track_mm .BLU) (m.track_mm .GRN)) (m.track_mm .YEL)) (m.track_mm .RED) -
    min (min (min (m.track_mm .BLU) (m.track_mm .GRN)) (m.track_mm .YEL)) (m.track_mm .RED)

/-- The body of `all_ok`'s loop over `REGIMES`, with its three early
`return False` exits. -/
def all_ok_loop (meas : MeasMap) : List Regime → Bool
  | [] => true
  | r :: rs =>
    match lookupRegime meas r with
    | none => false
    | some m =>
      if track_limit r < track_spread m then false
      else if balance_limit r < m.balance.amp_ips then false
      else all_ok_loop meas rs

/-- `all_ok(meas_by_regime)` (solver.py lines 23–31). -/
def all_ok (meas : MeasMap) : Bool :=
  all_ok_loop meas REGIMES

/-- Python 3 `round(x)`: nearest integer, ties to even (banker's rounding). -/
def pyRound (x : ℚ) : ℤ :=
  let n := ⌊x⌋
  let r := x - n
  if r < 1/2 then n
  else if 1/2 < r then n + 1
  else if n % 2 = 0 then n else n + 1

/-- `_round_quarter(x) = round(x * 4.0) / 4.0`. -/
def round_quarter (x : ℚ) : ℚ :=
  (pyRound (x * 4) : ℚ) / 4

instance : Inhabited (Measurement ℚ) :=
  ⟨⟨.GROUND, ⟨0, 0, 0⟩, fun _ => 0⟩⟩

/-- `suggest_pitchlink(meas)` (solver.py lines 36–44): averages each blade's
track over whichever of GROUND and HOVER are present; all zeros when neither is. -/
def suggest_pitchlink (meas : MeasMap) : Blade → ℚ :=
  let used := [Regime.GROUND, Regime.HOVER].filter fun r => (lookupRegime meas r).isSome
  if used.isEmpty then fun _ => 0
  else fun b =>
    let avg := (used.map fun r => ((lookupRegime meas r).getD default).track_mm b).sum /
      (used.length : ℚ)
    round_quarter ((-avg) / PITCHLINK_MM_PER_TURN)

/-- `suggest_trimtabs(meas)` (solver.py lines 46–53). -/
def suggest_trimtabs (meas : MeasMap) : Blade → ℚ :=
  match lookupRegime meas Regime.HORIZONTAL with
  | none => fun _ => 0
  | some m => fun b =>
    max (-5) (min 5 (round_quarter ((-(m.track_mm b)) / TRIMTAB_MMTRACK_PER_MM)))

/-- `x % 360.0` on floats (divisor positive): `x - 360 * ⌊x / 360⌋`. -/
def qmod360 (x : ℚ) : ℚ := x - 360 * ⌊x / 360⌋

/-- `dist(a, b)` inside `suggest_weight`: `d = abs(a - b) % 360.0;
min(d, 360.0 - d)`. -/
def clockDist (a b : ℚ) : ℚ :=
  let d := qmod360 |a - b|
  min d (360 - d)

/-- `max(iterable, key=f)`: first element attaining the maximum, folding
left, replacing the champion only on a strictly greater key. -/
def pyMaxBy {α : Type} (f : α → ℚ) (x : α) (xs : List α) : α :=
  xs.foldl (fun best y => if f best < f y then y else best) x

/-- `min(iterable, key=f)`: first element attaining the minimum. -/
def pyMinBy {α : Type} (f : α → ℚ) (x : α) (xs : List α) : α :=
  xs.foldl (fun best y => if f y < f best then y else best) x

/-- `suggest_weight(meas)` (solver.py lines 55–70).  `worst_r = max(meas.keys(),
key=…amp)` followed by `meas[worst_r]` is folded into one pass over the
items, which agrees with the code because a dict's keys are distinct. -/
def suggest_weight (meas : MeasMap) : Blade × ℚ :=
  match meas with
  | [] => (Blade.YEL, 0)
  | p :: rest =>
    let worst := pyMaxBy (fun q => q.2.balance.amp_ips) p rest
    let amp := worst.2.balance.amp_ips
    let phase := worst.2.balance.phase_deg
    let target := qmod360 (phase + 180)
    let blade := pyMinBy (fun bb => clockDist target (BLADE_CLOCK_DEG bb))
      Blade.BLU [Blade.GRN, Blade.YEL, Blade.RED]
    let grams := max 5 (min 120 ((pyRound (amp / BOLT_IPS_PER_GRAM / 5) : ℚ) * 5))
    (blade, grams)

end solver

namespace sim

/-- `BLADES = ["BLU", "GRN", "YEL", "RED"]` (sim.py line 7). -/
def BLADES : List Blade := [.BLU, .GRN, .YEL, .RED]

/-- `REGIMES = ["GROUND", "HOVER", "HORIZONTAL"]` (sim.py line 8). -/
def REGIMES : List Regime := [.GROUND, .HOVER, .HORIZONTAL]

/-- `BLADE_CLOCK_DEG` (sim.py line 12). -/
def BLADE_CLOCK_DEG : Blade → ℝ
  | .YEL => 0
  | .RED => 90
  | .BLU => 180
  | .GRN => 270

def BO105_DISPLAY_RPM : ℝ := 433.0

def PITCHLINK_MM_PER_TURN : ℝ := 10.0

def TRIMTAB_MMTRACK_PER_MM : ℝ := 15.0

def BOLT_IPS_PER_GRAM : ℝ := 0.0020

/-- `RUN_BASE_TRACK[1]`. -/
def run1Track : Regime → Blade → ℚ
  | .GROUND, .BLU => 18
  | .GROUND, .GRN => -8
  | .GROUND, .YEL => 0
  | .GROUND, .RED => -12
  | .HOVER, .BLU => 14
  | .HOVER, .GRN => -6
  | .HOVER, .YEL => 0
  | .HOVER, .RED => -10
  | .HORIZONTAL, .BLU => 10
  | .HORIZONTAL, .GRN => -4
  | .HORIZONTAL, .YEL => 0
  | .HORIZONTAL, .RED => -8

/-- `RUN_BASE_TRACK[2]`. -/
def run2Track : Regime → Blade → ℚ
  | .GROUND, .BLU => 4
  | .GROUND, .GRN => -3
  | .GROUND, .YEL => 0
  | .GROUND, .RED => -2
  | .HOVER, .BLU => 3
  | .HOVER, .GRN => -2
  | .HOVER, .YEL => 0
  | .HOVER, .RED => -2
  | .HORIZONTAL, .BLU => 14
  | .HORIZONTAL, .GRN => -6
  | .HORIZONTAL, .YEL => 0
  | .HORIZONTAL, .RED => -9

/-- `RUN_BASE_TRACK[3]`. -/
def run3Track : Regime → Blade → ℚ
  | .GROUND, .BLU => 2
  | .GROUND, .GRN => -2
  | .GROUND, .YEL => 0
  | .GROUND, .RED => -1
  | .HOVER, .BLU => 2
  | .HOVER, .GRN => -1.5
  | .HOVER, .YEL => 0
  | .HOVER, .RED => -1
  | .HORIZONTAL, .BLU => 2
  | .HORIZONTAL, .GRN => -2
  | .HORIZONTAL, .YEL => 0
  | .HORIZONTAL, .RED => -1

/-- `RUN_BASE_TRACK.get(run, RUN_BASE_TRACK[3])`: the dict has keys 1, 2, 3
and every other run index falls back to run 3's table. -/
def RUN_BASE_TRACK (run : ℤ) : Regime → Blade → ℚ :=
  if run = 1 then run1Track
  else if run = 2 then run2Track
  else if run = 3 then run3Track
  else run3Track

/-- `RUN_BASE_BAL[1]` as `(amplitude, phase)` pairs. -/
def run1Bal : Regime → ℚ × ℚ
  | .GROUND => (0.30, 125)
  | .HOVER => (0.12, 110)
  | .HORIZONTAL => (0.09, 95)

/-- `RUN_BASE_BAL[2]`. -/
def run2Bal : Regime → ℚ × ℚ
  | .GROUND => (0.22, 140)
  | .HOVER => (0.09, 120)
  | .HORIZONTAL => (0.07, 105)

/-- `RUN_BASE_BAL[3]`. -/
def run3Bal : Regime → ℚ × ℚ
  | .GROUND => (0.18, 160)
  | .HOVER => (0.08, 135)
  | .HORIZONTAL => (0.06, 120)

/-- `RUN_BASE_BAL.get(run, RUN_BASE_BAL[3])`. -/
def RUN_BASE_BAL (run : ℤ) : Regime → ℚ × ℚ :=
  if run = 1 then run1Bal
  else if run = 2 then run2Bal
  else if run = 3 then run3Bal
  else run3Bal

/-- One regime's slice of the adjustments dict:
`{"pitch_turns": {...}, "trim_mm": {...}, "bolt_g": {...}}`. -/
structure RegimeAdjust where
  pitch_turns : Blade → ℝ
  trim_mm : Blade → ℝ
  bolt_g : Blade → ℝ

/-- The full adjustments dict, keyed by regime. -/
def Adjustments : Type := Regime → RegimeAdjust

/-- `default_adjustments()` (sim.py lines 45–53): all controls 0.0. -/
def default_adjustments : Adjustments :=
  fun _ => ⟨fun _ => 0, fun _ => 0, fun _ => 0⟩

/-- The `random.gauss` draws consumed by one `simulate_measurement` call, in
order: one per blade for the track loop, then the two balance components.
An all-zero record models a zero-variance injected noise source. -/
structure Noise where
  track : Blade → ℝ
  balX : ℝ
  balY : ℝ

def zeroNoise : Noise := ⟨fun _ => 0, 0, 0⟩

/-- `_vec_from_clock_deg(theta)` (sim.py lines 55–57): the 2D vector
`(cos phi, sin phi)` with `phi = radians(90 - theta)`, modelled as the
complex number `cos phi + sin phi * I`. -/
noncomputable def vec_from_clock_deg (theta : ℝ) : ℂ :=
  let phi := (90 - theta) * (Real.pi / 180)
  (Real.cos phi : ℂ) + (Real.sin phi : ℂ) * Complex.I

/-- `x % 360.0` on floats: `x - 360 * ⌊x / 360⌋`. -/
noncomputable def fmod360 (x : ℝ) : ℝ := x - 360 * ⌊x / 360⌋

/-- `_clock_deg_from_vec(v)` (sim.py lines 59–62):
`(90 - degrees(atan2(y, x))) % 360`, with `atan2(y, x) = Complex.arg (x + y*I)`. -/
noncomputable def clock_deg_from_vec (v : ℂ) : ℝ :=
  fmod360 (90 - v.arg * (180 / Real.pi))

/-- A blade's simulated track value before the reference-blade
normalization (sim.py lines 70–76). -/
noncomputable def rawTrack (run : ℤ) (regime : Regime) (adj : Adjustments) (ν : Noise) (b : Blade) : ℝ :=
  (RUN_BASE_TRACK run regime b : ℝ) + PITCHLINK_MM_PER_TURN * (adj regime).pitch_turns b +
    (if regime = .HORIZONTAL then TRIMTAB_MMTRACK_PER_MM * (adj regime).trim_mm b else 0) +
    ν.track b

/-- The balance vector `v` of sim.py lines 83–87: baseline vector, plus one
bolt-weight correction per blade, plus the 2D noise draw. -/
noncomputable def balanceVec (run : ℤ) (regime : Regime) (adj : Adjustments) (ν : Noise) : ℂ :=
  let base := RUN_BASE_BAL run regime
  let v0 := vec_from_clock_deg (base.2 : ℝ) * ((base.1 : ℝ) : ℂ)
  let v1 := BLADES.foldl
    (fun v b => v + ((-BOLT_IPS_PER_GRAM * (adj regime).bolt_g b : ℝ) : ℂ) *
      vec_from_clock_deg (BLADE_CLOCK_DEG b)) v0
  v1 + ((ν.balX : ℂ) + (ν.balY : ℂ) * Complex.I)

/-- `simulate_measurement(run, regime, adjustments)` (sim.py lines 64–92),
with the noise draws passed explicitly.  The code subtracts the YEL entry
from every track value and then overwrites the YEL entry with exactly 0.0. -/
noncomputable def simulate_measurement (run : ℤ) (regime : Regime) (adj : Adjustments) (ν : Noise) :
    Measurement ℝ :=
  let raw := rawTrack run regime adj ν
  let track : Blade → ℝ := fun b => if b = .YEL then 0 else raw b - raw .YEL
  let v := balanceVec run regime adj ν
  let amp := Complex.abs v
  let phase := if 1e-6 < amp then clock_deg_from_vec v else 0
  { regime := regime, balance := ⟨amp, phase, BO105_DISPLAY_RPM⟩, track_mm := track }

end sim

/-- Position of a blade in the fixed `BLADES` iteration order. -/
def bladeIdx : Blade → ℕ
  | .BLU => 0
  | .GRN => 1
  | .YEL => 2
  | .RED => 3

/-- The adjustment set obtained from `adj` by increasing only blade `b`'s
`pitch_turns` entry of regime `r` by `δ`. -/
noncomputable def bumpPitch (adj : sim.Adjustments) (r : Regime) (b : Blade) (δ : ℝ) :
    sim.Adjustments :=
  fun r' =>
    if r' = r then
      { adj r' with
        pitch_turns := Function.update (adj r').pitch_turns b ((adj r').pitch_turns b + δ) }
    else adj r'

/-- A one-regime measurement set: GROUND with amplitude 0.30 ips at phase
125°, all track values zero (the spec §8 example scenario for
`suggest_weight`). -/
def demoMeas : solver.MeasMap :=
  [(Regime.GROUND, ⟨Regime.GROUND, ⟨0.30, 125, 433⟩, fun _ => 0⟩)]

/-! Helper lemmas. -/

namespace solver

theorem all_ok_loop_iff (meas : MeasMap) (rs : List Regime) :
    all_ok_loop meas rs = true ↔
      ∀ r ∈ rs, ∃ m, lookupRegime meas r = some m ∧
        track_spread m ≤ track_limit r ∧ m.balance.amp_ips ≤ balance_limit r := by
  induction rs with
  | nil => simp [all_ok_loop]
  | cons r rs ih =>
    simp only [all_ok_loop, List.mem_cons]
    cases h : lookupRegime meas r with
    | none => simp [h]
    | some m =>
      constructor
      · intro hall
        dsimp only at hall
        split_ifs at hall with h1 h2
        intro r' hr'
        rcases hr' with rfl | hr'
        · exact ⟨m, h, not_lt.mp h1, not_lt.mp h2⟩
        · exact ih.mp hall r' hr'
      · intro hall
        obtain ⟨m', hm', hs', ha'⟩ := hall r (Or.inl rfl)
        rw [h] at hm'
        obtain rfl : m = m' := by injection hm'
        dsimp only
        rw [if_neg (not_lt.mpr hs'), if_neg (not_lt.mpr ha')]
        exact ih.mpr fun r' hr' => hall r' (Or.inr hr')

theorem clamp5_quarter (x : ℚ) :
    ∃ k : ℤ, max (-5) (min 5 (round_quarter x)) = (k : ℚ) / 4 := by
  rcases le_total (round_quarter x) 5 with h1 | h1
  · rw [min_eq_right h1]
    rcases le_total (-5 : ℚ) (round_quarter x) with h2 | h2
    · rw [max_eq_right h2]
      exact ⟨pyRound (x * 4), rfl⟩
    · rw [max_eq_left h2]
      exact ⟨-20, by norm_num⟩
  · rw [min_eq_left h1]
    rw [max_eq_right (by norm_num : (-5 : ℚ) ≤ 5)]
    exact ⟨20, by norm_num⟩

theorem grams_spec (n : ℤ) :
    (∃ k : ℤ, max 5 (min 120 ((n : ℚ) * 5)) = 5 * k) ∧
      5 ≤ max 5 (min 120 ((n : ℚ) * 5)) ∧ max 5 (min 120 ((n : ℚ) * 5)) ≤ 120 := by
  refine ⟨?_, le_max_left _ _, max_le (by norm_num) (min_le_left _ _)⟩
  rcases le_total (120 : ℚ) ((n : ℚ) * 5) with h1 | h1
  · rw [min_eq_left h1, max_eq_right (by norm_num : (5 : ℚ) ≤ 120)]
    exact ⟨24, by norm_num⟩
  · rw [min_eq_right h1]
    rcases le_total (5 : ℚ) ((n : ℚ) * 5) with h2 | h2
    · rw [max_eq_right h2]
      exact ⟨n, by ring⟩
    · rw [max_eq_left h2]
      exact ⟨1, by norm_num⟩

theorem pyMaxBy_mem {α : Type} (f : α → ℚ) (x : α) (xs : List α) :
    pyMaxBy f x xs = x ∨ pyMaxBy f x xs ∈ xs := by
  induction xs generalizing x with
  | nil => exact Or.inl rfl
  | cons y ys ih =>
    simp only [pyMaxBy, List.foldl_cons] at ih ⊢
    rcases ih (if f x < f y then y else x) with h | h
    · rw [h]
      split_ifs with hc
      · exact Or.inr (List.mem_cons_self _ _)
      · exact Or.inl rfl
    · exact Or.inr (List.mem_cons_of_mem _ h)

theorem pyMaxBy_le {α : Type} (f : α → ℚ) (x : α) (xs : List α) :
    ∀ y, (y = x ∨ y ∈ xs) → f y ≤ f (pyMaxBy f x xs) := by
  induction xs generalizing x with
  | nil =>
    rintro y (rfl | h)
    · exact le_refl _
    · cases h
  | cons z zs ih =>
    have hx : f x ≤ f (if f x < f z then z else x) := by
      split_ifs with hc
      · exact le_of_lt hc
      · exact le_refl _
    have hz : f z ≤ f (if f x < f z then z else x) := by
      split_ifs with hc
      · exact le_refl _
      · exact not_lt.mp hc
    rintro y (rfl | hy)
    · exact le_trans hx (ih _ _ (Or.inl rfl))
    · rcases List.mem_cons.mp hy with rfl | hy'
      · exact le_trans hz (ih _ _ (Or.inl rfl))
      · exact ih _ _ (Or.inr hy')

theorem pyMinBlade_min (g : Blade → ℚ) (b : Blade) :
    g (pyMinBy g Blade.BLU [Blade.GRN, Blade.YEL, Blade.RED]) ≤ g b := by
  simp only [pyMinBy, List.foldl_cons, List.foldl_nil]
  split_ifs <;> cases b <;> linarith

theorem pyMinBlade_first (g : Blade → ℚ) (b : Blade)
    (hb : g b = g (pyMinBy g Blade.BLU [Blade.GRN, Blade.YEL, Blade.RED])) :
    bladeIdx (pyMinBy g Blade.BLU [Blade.GRN, Blade.YEL, Blade.RED]) ≤ bladeIdx b := by
  simp only [pyMinBy, List.foldl_cons, List.foldl_nil] at hb ⊢
  split_ifs at hb ⊢ <;> cases b <;> simp_all [bladeIdx] <;> linarith

end solver

/-! Claims about the corrective solver and compliance checker. -/

/-- Claim C3: `all_ok` is true exactly when each of GROUND, HOVER and
HORIZONTAL is present with track spread within its limit (10 mm for GROUND,
5 mm for the airborne regimes) and balance amplitude within its limit
(0.40 ips for GROUND, 0.05 ips otherwise); a missing regime yields `false`,
never an error. -/
theorem claim_C3 (meas : solver.MeasMap) :
    solver.all_ok meas = true ↔
      ((∃ m, solver.lookupRegime meas .GROUND = some m ∧
          solver.track_spread m ≤ 10 ∧ m.balance.amp_ips ≤ 0.40) ∧
       (∃ m, solver.lookupRegime meas .HOVER = some m ∧
          solver.track_spread m ≤ 5 ∧ m.balance.amp_ips ≤ 0.05) ∧
       (∃ m, solver.lookupRegime meas .HORIZONTAL = some m ∧
          solver.track_spread m ≤ 5 ∧ m.balance.amp_ips ≤ 0.05)) := by
  rw [solver.all_ok, solver.all_ok_loop_iff]
  simp [solver.REGIMES, solver.track_limit, solver.balance_limit]

/-- Claim C3 witness: the characterization instantiated on the empty
measurement set, where every regime is absent. -/
theorem claim_C3_witness :
    solver.all_ok ([] : solver.MeasMap) = true ↔
      ((∃ m, solver.lookupRegime [] .GROUND = some m ∧
          solver.track_spread m ≤ 10 ∧ m.balance.amp_ips ≤ 0.40) ∧
       (∃ m, solver.lookupRegime [] .HOVER = some m ∧
          solver.track_spread m ≤ 5 ∧ m.balance.amp_ips ≤ 0.05) ∧
       (∃ m, solver.lookupRegime [] .HORIZONTAL = some m ∧
          solver.track_spread m ≤ 5 ∧ m.balance.amp_ips ≤ 0.05)) :=
  claim_C3 []

/-- Claim C7: every `suggest_trimtabs` value is a quarter-unit multiple in
[-5, 5], obtained by clamping the quarter-rounded `-deviation / 15` of the
HORIZONTAL track values; `suggest_trimtabs` is all zeros when HORIZONTAL is
absent, and `suggest_pitchlink` is all zeros when GROUND and HOVER are both
absent. -/
theorem claim_C7 (meas : solver.MeasMap) :
    (∀ b, (∃ k : ℤ, solver.suggest_trimtabs meas b = (k : ℚ) / 4) ∧
      -5 ≤ solver.suggest_trimtabs meas b ∧ solver.suggest_trimtabs meas b ≤ 5) ∧
    (∀ m, solver.lookupRegime meas .HORIZONTAL = some m → ∀ b,
      solver.suggest_trimtabs meas b =
        max (-5) (min 5
          (solver.round_quarter (-(m.track_mm b) / solver.TRIMTAB_MMTRACK_PER_MM)))) ∧
    (solver.lookupRegime meas .HORIZONTAL = none →
      ∀ b, solver.suggest_trimtabs meas b = 0) ∧
    (solver.lookupRegime meas .GROUND = none → solver.lookupRegime meas .HOVER = none →
      ∀ b, solver.suggest_pitchlink meas b = 0) := by
  refine ⟨?_, ?_, ?_, ?_⟩
  · intro b
    unfold solver.suggest_trimtabs
    cases h : solver.lookupRegime meas .HORIZONTAL with
    | none => exact ⟨⟨0, by norm_num⟩, by norm_num, by norm_num⟩
    | some m =>
      exact ⟨solver.clamp5_quarter _, le_max_left _ _, max_le (by norm_num) (min_le_left _ _)⟩
  · intro m hm b
    unfold solver.suggest_trimtabs
    rw [hm]
  · intro h b
    unfold solver.suggest_trimtabs
    rw [h]
  · intro hg hh b
    unfold solver.suggest_pitchlink
    simp [hg, hh]

/-- Claim C7 witness: on the empty measurement set the quarter-multiple and
range facts hold and both suggestion functions return zero for every blade. -/
theorem claim_C7_witness :
    ((∃ k : ℤ, solver.suggest_trimtabs [] Blade.BLU = (k : ℚ) / 4) ∧
      -5 ≤ solver.suggest_trimtabs [] Blade.BLU ∧ solver.suggest_trimtabs [] Blade.BLU ≤ 5) ∧
    solver.suggest_trimtabs [] Blade.RED = 0 ∧ solver.suggest_pitchlink [] Blade.GRN = 0 := by
  have h := claim_C7 []
  exact ⟨h.1 Blade.BLU, h.2.2.1 rfl Blade.RED, h.2.2.2 rfl rfl Blade.GRN⟩

/-- Claim C10: on the empty measurement set `suggest_weight` returns exactly
the reference blade YEL with 0.0 grams, which lies below the `[5, 120]`
range that applies to non-empty inputs. -/
theorem claim_C10 :
    solver.suggest_weight ([] : solver.MeasMap) = (Blade.YEL, 0) ∧
      ¬ 5 ≤ (solver.suggest_weight ([] : solver.MeasMap)).2 := by
  exact ⟨rfl, by norm_num [solver.suggest_weight]⟩

/-- Claim C2 counterexample: as stated over every measurement set the claim
fails at the empty set, where the returned grams value is 0, outside
`[5, 120]`. -/
theorem claim_C2_counterexample :
    ¬ (5 ≤ (solver.suggest_weight ([] : solver.MeasMap)).2 ∧
       (solver.suggest_weight ([] : solver.MeasMap)).2 ≤ 120) := by
  intro h
  have h0 : (solver.suggest_weight ([] : solver.MeasMap)).2 = 0 := rfl
  rw [h0] at h
  exact absurd h.1 (by norm_num)

/-- Claim C2 (amended: for every NON-EMPTY measurement set): `suggest_weight`
returns a grams value that is a multiple of 5 in `[5, 120]`, and a blade whose
fixed clock position has minimal circular distance to
`(worst_phase + 180) mod 360`, where `worst` is a measurement of maximal
balance amplitude, ties among equidistant blades broken by the iteration
order of the fixed blade list. -/
theorem claim_C2 (meas : solver.MeasMap) (h : meas ≠ []) :
    (∃ k : ℤ, (solver.suggest_weight meas).2 = 5 * k) ∧
    5 ≤ (solver.suggest_weight meas).2 ∧ (solver.suggest_weight meas).2 ≤ 120 ∧
    ∃ worst ∈ meas,
      (∀ q ∈ meas, q.2.balance.amp_ips ≤ worst.2.balance.amp_ips) ∧
      (∀ b, solver.clockDist (solver.qmod360 (worst.2.balance.phase_deg + 180))
          (solver.BLADE_CLOCK_DEG ((solver.suggest_weight meas).1)) ≤
        solver.clockDist (solver.qmod360 (worst.2.balance.phase_deg + 180))
          (solver.BLADE_CLOCK_DEG b)) ∧
      (∀ b, solver.clockDist (solver.qmod360 (worst.2.balance.phase_deg + 180))
          (solver.BLADE_CLOCK_DEG b) =
        solver.clockDist (solver.qmod360 (worst.2.balance.phase_deg + 180))
          (solver.BLADE_CLOCK_DEG ((solver.suggest_weight meas).1)) →
        bladeIdx ((solver.suggest_weight meas).1) ≤ bladeIdx b) := by
  obtain ⟨p, rest, rfl⟩ : ∃ p rest, meas = p :: rest := by
    cases meas with
    | nil => exact absurd rfl h
    | cons p rest => exact ⟨p, rest, rfl⟩
  simp only [solver.suggest_weight]
  refine ⟨(solver.grams_spec _).1, (solver.grams_spec _).2.1, (solver.grams_spec _).2.2,
    solver.pyMaxBy (fun q => q.2.balance.amp_ips) p rest, ?_, ?_, ?_, ?_⟩
  · rcases solver.pyMaxBy_mem (fun q => q.2.balance.amp_ips) p rest with hm | hm
    · rw [hm]; exact List.mem_cons_self _ _
    · exact List.mem_cons_of_mem _ hm
  · intro q hq
    exact solver.pyMaxBy_le (fun q => q.2.balance.amp_ips) p rest q (List.mem_cons.mp hq)
  · intro b
    exact solver.pyMinBlade_min
      (fun bb => solver.clockDist
        (solver.qmod360
          ((solver.pyMaxBy (fun q => q.2.balance.amp_ips) p rest).2.balance.phase_deg + 180))
        (solver.BLADE_CLOCK_DEG bb)) b
  · intro b hb
    exact solver.pyMinBlade_first
      (fun bb => solver.clockDist
        (solver.qmod360
          ((solver.pyMaxBy (fun q => q.2.balance.amp_ips) p rest).2.balance.phase_deg + 180))
        (solver.BLADE_CLOCK_DEG bb)) b hb

/-! Helper lemmas about the simulator's clock-vector arithmetic. -/

namespace sim

theorem fmod360_nonneg (x : ℝ) : 0 ≤ fmod360 x := by
  have h := Int.floor_le (x / 360)
  have h2 : (⌊x / 360⌋ : ℝ) * 360 ≤ x / 360 * 360 :=
    mul_le_mul_of_nonneg_right h (by norm_num)
  rw [div_mul_cancel₀ x (by norm_num : (360 : ℝ) ≠ 0)] at h2
  unfold fmod360
  linarith

theorem fmod360_lt (x : ℝ) : fmod360 x < 360 := by
  have h := Int.lt_floor_add_one (x / 360)
  have h2 : x / 360 * 360 < ((⌊x / 360⌋ : ℝ) + 1) * 360 :=
    mul_lt_mul_of_pos_right h (by norm_num)
  rw [div_mul_cancel₀ x (by norm_num : (360 : ℝ) ≠ 0)] at h2
  unfold fmod360
  linarith

theorem fmod360_eq_self {x : ℝ} (h0 : 0 ≤ x) (h1 : x < 360) : fmod360 x = x := by
  unfold fmod360
  have hz : ⌊x / 360⌋ = 0 := by
    rw [Int.floor_eq_zero_iff]
    refine Set.mem_Ico.mpr ⟨div_nonneg h0 (by norm_num), ?_⟩
    rw [div_lt_one (by norm_num)]
    exact h1
  rw [hz]
  push_cast
  ring

theorem fmod360_add_int_mul (x : ℝ) (n : ℤ) : fmod360 (x + 360 * n) = fmod360 x := by
  unfold fmod360
  have h : (x + 360 * n) / 360 = x / 360 + n := by
    field_simp
    ring
  rw [h, Int.floor_add_int]
  push_cast
  ring

theorem vec_abs (θ : ℝ) : Complex.abs (vec_from_clock_deg θ) = 1 := by
  simp only [vec_from_clock_deg]
  rw [Complex.ofReal_cos, Complex.ofReal_sin]
  exact Complex.abs_cos_add_sin_mul_I _

theorem vec_arg (θ : ℝ) (h1 : -180 < 90 - θ) (h2 : 90 - θ ≤ 180) :
    (vec_from_clock_deg θ).arg = (90 - θ) * (Real.pi / 180) := by
  simp only [vec_from_clock_deg]
  rw [Complex.ofReal_cos, Complex.ofReal_sin]
  apply Complex.arg_cos_add_sin_mul_I
  have hp := Real.pi_pos
  refine Set.mem_Ioc.mpr ⟨?_, ?_⟩
  · nlinarith [mul_pos (show (0 : ℝ) < 90 - θ + 180 by linarith) hp]
  · nlinarith [mul_nonneg (show (0 : ℝ) ≤ 180 - (90 - θ) by linarith) hp.le]

theorem abs_scaled_vec (θ amp : ℝ) (hamp : 0 ≤ amp) :
    Complex.abs (vec_from_clock_deg θ * (amp : ℂ)) = amp := by
  rw [map_mul, vec_abs, Complex.abs_ofReal, one_mul, abs_of_nonneg hamp]

theorem clock_of_scaled_vec (θ amp : ℝ) (hamp : 0 < amp)
    (h3 : 0 ≤ θ) (h4 : θ < 270) :
    clock_deg_from_vec (vec_from_clock_deg θ * (amp : ℂ)) = θ := by
  have harg : (vec_from_clock_deg θ * (amp : ℂ)).arg = (90 - θ) * (Real.pi / 180) := by
    rw [mul_comm, Complex.arg_real_mul _ hamp]
    exact vec_arg θ (by linarith) (by linarith)
  unfold clock_deg_from_vec
  rw [harg]
  have key : (90 - θ) * (Real.pi / 180) * (180 / Real.pi) = 90 - θ := by
    have hπ := Real.pi_ne_zero
    field_simp
  rw [key, show (90 : ℝ) - (90 - θ) = θ by ring]
  exact fmod360_eq_self h3 (by linarith)

theorem rawTrack_neutral (run : ℤ) (regime : Regime) (b : Blade) :
    rawTrack run regime default_adjustments zeroNoise b = (RUN_BASE_TRACK run regime b : ℝ) := by
  unfold rawTrack
  simp [default_adjustments, zeroNoise]

theorem balanceVec_neutral (run : ℤ) (regime : Regime) :
    balanceVec run regime default_adjustments zeroNoise =
      vec_from_clock_deg ((RUN_BASE_BAL run regime).2 : ℝ) *
        (((RUN_BASE_BAL run regime).1 : ℝ) : ℂ) := by
  unfold balanceVec
  simp [default_adjustments, zeroNoise, BLADES]

theorem simulate_neutral (run : ℤ) (regime : Regime)
    (hyel : RUN_BASE_TRACK run regime Blade.YEL = 0)
    (hamp : (0.000001 : ℚ) < (RUN_BASE_BAL run regime).1)
    (hph0 : (0 : ℚ) ≤ (RUN_BASE_BAL run regime).2)
    (hph1 : (RUN_BASE_BAL run regime).2 < 270) :
    (∀ b, (simulate_measurement run regime default_adjustments zeroNoise).track_mm b =
      (RUN_BASE_TRACK run regime b : ℝ)) ∧
    (simulate_measurement run regime default_adjustments zeroNoise).balance.amp_ips =
      ((RUN_BASE_BAL run regime).1 : ℝ) ∧
    (simulate_measurement run regime default_adjustments zeroNoise).balance.phase_deg =
      ((RUN_BASE_BAL run regime).2 : ℝ) := by
  have hampR : (0 : ℝ) < ((RUN_BASE_BAL run regime).1 : ℝ) := by
    have h : (0 : ℚ) < (RUN_BASE_BAL run regime).1 := lt_trans (by norm_num) hamp
    exact_mod_cast h
  have habs : Complex.abs (balanceVec run regime default_adjustments zeroNoise) =
      ((RUN_BASE_BAL run regime).1 : ℝ) := by
    rw [balanceVec_neutral]
    exact abs_scaled_vec _ _ hampR.le
  refine ⟨?_, ?_, ?_⟩
  · intro b
    have hYELr : rawTrack run regime default_adjustments zeroNoise Blade.YEL = 0 := by
      rw [rawTrack_neutral, hyel]
      norm_num
    by_cases hb : b = Blade.YEL
    · subst hb
      simp [simulate_measurement, hyel]
    · simp [simulate_measurement, hb, rawTrack_neutral, hYELr]
  · simp only [simulate_measurement]
    exact habs
  · simp only [simulate_measurement]
    have hgt : (1e-6 : ℝ) < Complex.abs (balanceVec run regime default_adjustments zeroNoise) := by
      rw [habs]
      have h : ((0.000001 : ℚ) : ℝ) < ((RUN_BASE_BAL run regime).1 : ℝ) := by exact_mod_cast hamp
      calc (1e-6 : ℝ) = ((0.000001 : ℚ) : ℝ) := by norm_num
        _ < _ := h
    rw [if_pos hgt, balanceVec_neutral]
    have hph0R : (0 : ℝ) ≤ ((RUN_BASE_BAL run regime).2 : ℝ) := by exact_mod_cast hph0
    have hph1R : ((RUN_BASE_BAL run regime).2 : ℝ) < 270 := by exact_mod_cast hph1
    exact clock_of_scaled_vec _ _ hampR hph0R hph1R

end sim

/-! Claims about the measurement simulator. -/

/-- Claim C4: every simulated Measurement reports exactly 0.0 for the
reference blade YEL, whatever the run, regime, adjustments and noise draws. -/
theorem claim_C4 (run : ℤ) (regime : Regime) (adj : sim.Adjustments) (ν : sim.Noise) :
    (sim.simulate_measurement run regime adj ν).track_mm Blade.YEL = 0 := by
  simp [sim.simulate_measurement]

/-- Claim C9: every simulated Measurement has a nonnegative balance
amplitude and a phase in `[0, 360)`; whenever the balance vector's magnitude
is within the near-zero epsilon `1e-6`, the phase is exactly 0.0. -/
theorem claim_C9 (run : ℤ) (regime : Regime) (adj : sim.Adjustments) (ν : sim.Noise) :
    0 ≤ (sim.simulate_measurement run regime adj ν).balance.amp_ips ∧
    0 ≤ (sim.simulate_measurement run regime adj ν).balance.phase_deg ∧
    (sim.simulate_measurement run regime adj ν).balance.phase_deg < 360 ∧
    ((sim.simulate_measurement run regime adj ν).balance.amp_ips ≤ 1e-6 →
      (sim.simulate_measurement run regime adj ν).balance.phase_deg = 0) := by
  simp only [sim.simulate_measurement]
  refine ⟨AbsoluteValue.nonneg _ _, ?_, ?_, ?_⟩ <;>
    by_cases hc : (1e-6 : ℝ) < Complex.abs (sim.balanceVec run regime adj ν)
  · rw [if_pos hc]
    exact sim.fmod360_nonneg _
  · rw [if_neg hc]
  · rw [if_pos hc]
    exact sim.fmod360_lt _
  · rw [if_neg hc]
    norm_num
  · intro hle
    exact absurd hc (not_lt.mpr hle)
  · intro _
    rw [if_neg hc]

/-- Claim C9 witness: the invariants instantiated at run 1, GROUND, neutral
adjustments, zero noise. -/
theorem claim_C9_witness :
    0 ≤ (sim.simulate_measurement 1 .GROUND sim.default_adjustments
        sim.zeroNoise).balance.amp_ips ∧
    0 ≤ (sim.simulate_measurement 1 .GROUND sim.default_adjustments
        sim.zeroNoise).balance.phase_deg ∧
    (sim.simulate_measurement 1 .GROUND sim.default_adjustments
        sim.zeroNoise).balance.phase_deg < 360 ∧
    ((sim.simulate_measurement 1 .GROUND sim.default_adjustments
        sim.zeroNoise).balance.amp_ips ≤ 1e-6 →
      (sim.simulate_measurement 1 .GROUND sim.default_adjustments
        sim.zeroNoise).balance.phase_deg = 0) :=
  claim_C9 1 .GROUND sim.default_adjustments sim.zeroNoise

/-- Claim C8: for a run index outside the defined baseline runs 1–3 the
simulator falls back to run 3's baselines, so with identical noise draws it
returns exactly the run-3 Measurement; no error is possible. -/
theorem claim_C8 (run : ℤ) (h1 : run ≠ 1) (h2 : run ≠ 2) (h3 : run ≠ 3)
    (regime : Regime) (adj : sim.Adjustments) (ν : sim.Noise) :
    sim.simulate_measurement run regime adj ν = sim.simulate_measurement 3 regime adj ν := by
  have hT : sim.RUN_BASE_TRACK run = sim.RUN_BASE_TRACK 3 := by
    unfold sim.RUN_BASE_TRACK
    rw [if_neg h1, if_neg h2, if_neg h3]
    norm_num
  have hB : sim.RUN_BASE_BAL run = sim.RUN_BASE_BAL 3 := by
    unfold sim.RUN_BASE_BAL
    rw [if_neg h1, if_neg h2, if_neg h3]
    norm_num
  simp only [sim.simulate_measurement, sim.rawTrack, sim.balanceVec, hT, hB]

/-- Claim C8 witness: run 4 produces exactly the run-3 Measurement under
identical (zero) noise and neutral adjustments. -/
theorem claim_C8_witness :
    sim.simulate_measurement 4 .GROUND sim.default_adjustments sim.zeroNoise =
      sim.simulate_measurement 3 .GROUND sim.default_adjustments sim.zeroNoise :=
  claim_C8 4 (by decide) (by decide) (by decide) .GROUND sim.default_adjustments sim.zeroNoise

/-- Claim C6: with identical noise draws, increasing one blade's
`pitch_turns` by δ changes exactly that blade's pre-normalization track value,
by `δ × PITCHLINK_MM_PER_TURN` (10 mm per turn), and leaves the other blades'
pre-normalization track values and the balance vector unchanged. -/
theorem claim_C6 (run : ℤ) (regime : Regime) (adj : sim.Adjustments) (ν : sim.Noise)
    (b : Blade) (δ : ℝ) :
    sim.rawTrack run regime (bumpPitch adj regime b δ) ν b =
      sim.rawTrack run regime adj ν b + δ * sim.PITCHLINK_MM_PER_TURN ∧
    (∀ b', b' ≠ b → sim.rawTrack run regime (bumpPitch adj regime b δ) ν b' =
      sim.rawTrack run regime adj ν b') ∧
    sim.balanceVec run regime (bumpPitch adj regime b δ) ν =
      sim.balanceVec run regime adj ν := by
  refine ⟨?_, ?_, ?_⟩
  · simp [sim.rawTrack, bumpPitch, Function.update_same]
    ring
  · intro b' hb'
    simp [sim.rawTrack, bumpPitch, Function.update_noteq hb']
  · simp [sim.balanceVec, bumpPitch]

/-- Claim C6 witness: the pitch-link linearity instantiated at run 1, GROUND,
neutral adjustments, zero noise, blade BLU, δ = 1, with GRN as the unchanged
other blade. -/
theorem claim_C6_witness :
    sim.rawTrack 1 .GROUND (bumpPitch sim.default_adjustments .GROUND .BLU 1)
      sim.zeroNoise .BLU =
      sim.rawTrack 1 .GROUND sim.default_adjustments sim.zeroNoise .BLU +
        1 * sim.PITCHLINK_MM_PER_TURN ∧
    sim.rawTrack 1 .GROUND (bumpPitch sim.default_adjustments .GROUND .BLU 1)
      sim.zeroNoise .GRN =
      sim.rawTrack 1 .GROUND sim.default_adjustments sim.zeroNoise .GRN ∧
    sim.balanceVec 1 .GROUND (bumpPitch sim.default_adjustments .GROUND .BLU 1) sim.zeroNoise =
      sim.balanceVec 1 .GROUND sim.default_adjustments sim.zeroNoise := by
  have h := claim_C6 1 .GROUND sim.default_adjustments sim.zeroNoise .BLU 1
  exact ⟨h.1, h.2.1 .GRN (by decide), h.2.2⟩

/-- Claim C1: with the injected noise source drawing 0.0 everywhere and all
adjustments neutral, the simulator reproduces the configured baselines of
every defined run and regime exactly: each track value equals the configured
baseline offset (already normalized to the reference blade YEL, whose
configured offset is 0), and the balance reading equals the configured
baseline (amplitude, phase). -/
theorem claim_C1 (run : ℤ) (hrun : run = 1 ∨ run = 2 ∨ run = 3) (regime : Regime) :
    (∀ b, (sim.simulate_measurement run regime sim.default_adjustments
        sim.zeroNoise).track_mm b = (sim.RUN_BASE_TRACK run regime b : ℝ)) ∧
    (sim.simulate_measurement run regime sim.default_adjustments
        sim.zeroNoise).balance.amp_ips = ((sim.RUN_BASE_BAL run regime).1 : ℝ) ∧
    (sim.simulate_measurement run regime sim.default_adjustments
        sim.zeroNoise).balance.phase_deg = ((sim.RUN_BASE_BAL run regime).2 : ℝ) := by
  apply sim.simulate_neutral <;>
    rcases hrun with rfl | rfl | rfl <;> cases regime <;>
      norm_num [sim.RUN_BASE_TRACK, sim.RUN_BASE_BAL, sim.run1Track, sim.run2Track,
        sim.run3Track, sim.run1Bal, sim.run2Bal, sim.run3Bal]

/-- Claim C1 witness: run 1, GROUND, neutral adjustments, zero noise gives
track offsets +18.0, −8.0, 0.0, −12.0 mm for BLU, GRN, YEL, RED and balance
0.30 ips at 125°. -/
theorem claim_C1_witness :
    (sim.simulate_measurement 1 .GROUND sim.default_adjustments
        sim.zeroNoise).track_mm .BLU = 18 ∧
    (sim.simulate_measurement 1 .GROUND sim.default_adjustments
        sim.zeroNoise).track_mm .GRN = -8 ∧
    (sim.simulate_measurement 1 .GROUND sim.default_adjustments
        sim.zeroNoise).track_mm .YEL = 0 ∧
    (sim.simulate_measurement 1 .GROUND sim.default_adjustments
        sim.zeroNoise).track_mm .RED = -12 ∧
    (sim.simulate_measurement 1 .GROUND sim.default_adjustments
        sim.zeroNoise).balance.amp_ips = 0.30 ∧
    (sim.simulate_measurement 1 .GROUND sim.default_adjustments
        sim.zeroNoise).balance.phase_deg = 125 := by
  have h := claim_C1 1 (Or.inl rfl) .GROUND
  refine ⟨?_, ?_, ?_, ?_, ?_, ?_⟩
  · rw [h.1 .BLU]
    norm_num [sim.RUN_BASE_TRACK, sim.run1Track]
  · rw [h.1 .GRN]
    norm_num [sim.RUN_BASE_TRACK, sim.run1Track]
  · rw [h.1 .YEL]
    norm_num [sim.RUN_BASE_TRACK, sim.run1Track]
  · rw [h.1 .RED]
    norm_num [sim.RUN_BASE_TRACK, sim.run1Track]
  · rw [h.2.1]
    norm_num [sim.RUN_BASE_BAL, sim.run1Bal]
  · rw [h.2.2]
    norm_num [sim.RUN_BASE_BAL, sim.run1Bal]

/-- Claim C5: `vector_from_clock` always yields a unit vector, and
`clock_from_vector` inverts it modulo one turn: for every clock angle θ in
degrees, `clock_from_vector (vector_from_clock θ) = θ mod 360`. -/
theorem claim_C5 (θ : ℝ) :
    Complex.abs (sim.vec_from_clock_deg θ) = 1 ∧
    sim.clock_deg_from_vec (sim.vec_from_clock_deg θ) = sim.fmod360 θ := by
  refine ⟨sim.vec_abs θ, ?_⟩
  have hp : (0 : ℝ) < 2 * Real.pi := Real.two_pi_pos
  set φ := (90 - θ) * (Real.pi / 180) with hφ
  set ψ := toIocMod hp (-Real.pi) φ with hψ
  set n := toIocDiv hp (-Real.pi) φ with hn
  have hmem : ψ ∈ Set.Ioc (-Real.pi) Real.pi := by
    have h := toIocMod_mem_Ioc hp (-Real.pi) φ
    rwa [show -Real.pi + 2 * Real.pi = Real.pi by ring] at h
  have hφψ : φ = ψ + (n : ℝ) * (2 * Real.pi) := by
    have h := self_sub_toIocMod hp (-Real.pi) φ
    rw [zsmul_eq_mul] at h
    rw [← hψ, ← hn] at h
    linarith
  have hcos : Real.cos φ = Real.cos ψ := by
    rw [hφψ, Real.cos_add_int_mul_two_pi]
  have hsin : Real.sin φ = Real.sin ψ := by
    rw [hφψ, Real.sin_add_int_mul_two_pi]
  have harg : (sim.vec_from_clock_deg θ).arg = ψ := by
    simp only [sim.vec_from_clock_deg]
    rw [← hφ, hcos, hsin, Complex.ofReal_cos, Complex.ofReal_sin]
    exact Complex.arg_cos_add_sin_mul_I hmem
  unfold sim.clock_deg_from_vec
  rw [harg]
  have key : 90 - ψ * (180 / Real.pi) = θ + 360 * (n : ℝ) := by
    have hψval : ψ = φ - (n : ℝ) * (2 * Real.pi) := by linarith
    rw [hψval, hφ]
    have hπ := Real.pi_ne_zero
    field_simp
    ring
  rw [key, sim.fmod360_add_int_mul]

/-- Claim C2 witness: the amended claim instantiated on the one-regime
demo set (GROUND, 0.30 ips at 125°). -/
theorem claim_C2_witness :
    (∃ k : ℤ, (solver.suggest_weight demoMeas).2 = 5 * k) ∧
    5 ≤ (solver.suggest_weight demoMeas).2 ∧ (solver.suggest_weight demoMeas).2 ≤ 120 ∧
    ∃ worst ∈ demoMeas,
      (∀ q ∈ demoMeas, q.2.balance.amp_ips ≤ worst.2.balance.amp_ips) ∧
      (∀ b, solver.clockDist (solver.qmod360 (worst.2.balance.phase_deg + 180))
          (solver.BLADE_CLOCK_DEG ((solver.suggest_weight demoMeas).1)) ≤
        solver.clockDist (solver.qmod360 (worst.2.balance.phase_deg + 180))
          (solver.BLADE_CLOCK_DEG b)) ∧
      (∀ b, solver.clockDist (solver.qmod360 (worst.2.balance.phase_deg + 180))
          (solver.BLADE_CLOCK_DEG b) =
        solver.clockDist (solver.qmod360 (worst.2.balance.phase_deg + 180))
          (solver.BLADE_CLOCK_DEG ((solver.suggest_weight demoMeas).1)) →
        bladeIdx ((solver.suggest_weight demoMeas).1) ≤ bladeIdx b) :=
  claim_C2 demoMeas (by simp [demoMeas])

end VXP
